import Mathlib

/-!
# scater: the generated Rcpp binding layer (`src/RcppExports.cpp`)

A shallow embedding of the five forwarding entry points, of the routine table
`CallEntries` and of the load hook `R_init_scater`, followed by the properties
of that layer.

Conventions of the embedding.

* What the file uses but does not define (the host's `SEXP`, the C++ exception
  type, `Rcpp::as<T>` for the typed parameters, `Rcpp::wrap` for a numeric
  matrix, the five native routines) is a parameter: the structure `Rcpp` and
  the function `Natives`.
* A call of an entry point yields a `Run`: the list of observable events (which
  argument conversions ran, which native routine was entered and with which
  arguments) and the way the call ended.
* `Rcpp::traits::input_parameter<T>::type x(xSEXP)` for a by-value `T` declares
  an `Rcpp::InputParameter<T>`: the declaration stores `xSEXP`, and the
  conversion `as<T>` runs in the object's conversion operator, that is where
  `x` is passed to the native routine.  C++ leaves the order in which the
  arguments of one call are evaluated to the compiler, so that order is a
  parameter as well (`ArgOrder`).
-/

namespace Scater

/-! ## The host runtime and the Rcpp library, as parameters -/

/-- The types and conversions that the binding layer takes from the host runtime and
from the Rcpp library.  `as_*` is `Rcpp::as<T>` and may throw. -/
structure Rcpp where
  SEXP : Type
  Exn : Type
  RcppList : Type
  IntegerVector : Type
  NumericMatrix : Type
  as_bool : SEXP → Except Exn Bool
  as_int : SEXP → Except Exn Int
  as_List : SEXP → Except Exn RcppList
  as_IntegerVector : SEXP → Except Exn IntegerVector
  wrap_NumericMatrix : NumericMatrix → SEXP

/-- The class `Rcpp::RObject`: an untyped handle around a `SEXP`. -/
structure RObject (R : Rcpp) where
  sexp : R.SEXP

/-- The C++ parameter types that occur in the five native prototypes. -/
inductive CType where
  | SEXP
  | RObject
  | bool
  | int
  | RcppList
  | IntegerVector
  deriving DecidableEq, Repr

/-- The native value type a C++ parameter type stands for. -/
def CType.denote (R : Rcpp) : CType → Type
  | .SEXP => R.SEXP
  | .RObject => Scater.RObject R
  | .bool => Bool
  | .int => Int
  | .RcppList => R.RcppList
  | .IntegerVector => R.IntegerVector

/-- The conversion `Rcpp::as<T>`: the identity on `SEXP`, the handle constructor on `RObject`,
the library's checked conversion on the typed parameters. -/
def Rcpp.as (R : Rcpp) : (T : CType) → R.SEXP → Except R.Exn (T.denote R)
  | .SEXP, x => .ok x
  | .RObject, x => .ok (Scater.RObject.mk x)
  | .bool, x => R.as_bool x
  | .int, x => R.as_int x
  | .RcppList, x => R.as_List x
  | .IntegerVector, x => R.as_IntegerVector x

/-- The C++ result types of the five native prototypes. -/
inductive RetType where
  | SEXP
  | RObject
  | NumericMatrix
  deriving DecidableEq, Repr

/-- The native value type a C++ result type stands for. -/
def RetType.denote (R : Rcpp) : RetType → Type
  | .SEXP => R.SEXP
  | .RObject => Scater.RObject R
  | .NumericMatrix => R.NumericMatrix

/-- The overloads of `Rcpp::wrap` that the file uses. -/
def Rcpp.wrap (R : Rcpp) : (T : RetType) → T.denote R → R.SEXP
  | .SEXP, v => v
  | .RObject, v => v.sexp
  | .NumericMatrix, v => R.wrap_NumericMatrix v

/-! ## The native routines (prototypes at lines 9, 24, 37, 49, 60) -/

/-- The five native routines the file forwards to. -/
inductive Routine where
  | create_lazy_vector
  | per_cell_qc
  | per_feature_qc
  | top_cumprop
  | sum_row_counts
  deriving DecidableEq, Repr

/-- The C++ identifier of a native routine. -/
def Routine.nativeName : Routine → String
  | .create_lazy_vector => "create_lazy_vector"
  | .per_cell_qc => "per_cell_qc"
  | .per_feature_qc => "per_feature_qc"
  | .top_cumprop => "top_cumprop"
  | .sum_row_counts => "sum_row_counts"

/-- The parameter types of the native prototypes, in declaration order. -/
def paramTypes : Routine → List CType
  | .create_lazy_vector => [.SEXP, .SEXP, .SEXP, .bool, .int, .int]
  | .per_cell_qc => [.RObject, .RcppList, .IntegerVector, .SEXP]
  | .per_feature_qc => [.RObject, .RcppList, .SEXP]
  | .top_cumprop => [.RObject, .IntegerVector]
  | .sum_row_counts => [.RObject, .IntegerVector, .IntegerVector]

/-- The result types of the native prototypes. -/
def retType : Routine → RetType
  | .create_lazy_vector => .SEXP
  | .per_cell_qc => .RObject
  | .per_feature_qc => .RObject
  | .top_cumprop => .NumericMatrix
  | .sum_row_counts => .RObject

/-- A positional tuple of native values, one per parameter type. -/
def ArgTuple (R : Rcpp) : List CType → Type
  | [] => PUnit
  | [T] => T.denote R
  | T :: U :: Ts => T.denote R × ArgTuple R (U :: Ts)

/-- The argument tuple of a native routine. -/
abbrev NativeArgs (R : Rcpp) (r : Routine) : Type := ArgTuple R (paramTypes r)

/-- The result of a native routine. -/
abbrev NativeRet (R : Rcpp) (r : Routine) : Type := (retType r).denote R

/-- The native routines themselves are defined outside the file: each takes its argument tuple
and returns a value or throws. -/
abbrev Natives (R : Rcpp) : Type := (r : Routine) → NativeArgs R r → Except R.Exn (NativeRet R r)

/-! ## Events, bodies and runs -/

/-- What a call of an entry point does that can be observed: the conversion operator of the
argument at position `i` ran, or native routine `r` was entered with `args`. -/
inductive Event (R : Rcpp) where
  | arg (i : Nat)
  | native (r : Routine) (args : NativeArgs R r)

/-- A computation inside a `try` block: the events so far and a value or a thrown exception. -/
structure Body (R : Rcpp) (α : Type) where
  trace : List (Event R)
  result : Except R.Exn α

/-- A computation that returns without any event. -/
def Body.pure {R : Rcpp} {α : Type} (a : α) : Body R α := ⟨[], .ok a⟩

/-- Sequencing: a thrown exception skips the rest. -/
def Body.bind {R : Rcpp} {α β : Type} (b : Body R α) (f : α → Body R β) : Body R β :=
  match b.result with
  | .error e => ⟨b.trace, .error e⟩
  | .ok a => ⟨b.trace ++ (f a).trace, (f a).result⟩

/-- How a call of an `extern "C"` entry point ends: it returns a `SEXP`, it signals an error
through the host runtime, or a C++ exception leaves the function. -/
inductive Outcome (R : Rcpp) where
  | value (v : R.SEXP)
  | hostError (e : R.Exn)
  | escaped (e : R.Exn)

/-- A finished call: its events and its outcome. -/
structure Run (R : Rcpp) where
  trace : List (Event R)
  outcome : Outcome R

/-- Modelled from the spec: the macro pair `BEGIN_RCPP` / `END_RCPP` (defined in the Rcpp
headers, not in the file).  "Any exception raised during conversion or invocation is caught at
the boundary and translated into the host runtime's error-signaling convention." -/
def BEGIN_END_RCPP (R : Rcpp) (body : Body R R.SEXP) : Run R :=
  ⟨body.trace, match body.result with
    | .ok v => .value v
    | .error e => .hostError e⟩

/-- An object declared as `Rcpp::traits::input_parameter<T>::type x(xSEXP)`: it holds the `SEXP`. -/
structure InputParameter (R : Rcpp) (T : CType) where
  x : R.SEXP

/-- The conversion operator `operator T()` of an input parameter: `as<T>` of the held `SEXP`. -/
def InputParameter.get {R : Rcpp} {T : CType} (p : InputParameter R T) :
    Except R.Exn (T.denote R) :=
  R.as T p.x

/-- The exception the conversion operator throws, if it throws. -/
def InputParameter.failure {R : Rcpp} {T : CType} (p : InputParameter R T) : Option R.Exn :=
  match p.get with
  | .error e => some e
  | .ok _ => none

/-- The value that the conversion operator of an argument produced; used after `evalArgs`
has let the conversion operators run. -/
def Body.arg {R : Rcpp} {T : CType} (p : InputParameter R T) : Body R (T.denote R) :=
  ⟨[], p.get⟩

/-- An order in which the compiler evaluates the `n` arguments of a call: every position
exactly once. -/
abbrev ArgOrder (n : Nat) : Type := { l : List Nat // l.Perm (List.range n) }

/-- Left to right. -/
def ArgOrder.leftToRight (n : Nat) : ArgOrder n := ⟨List.range n, List.Perm.refl _⟩

/-- Right to left. -/
def ArgOrder.rightToLeft (n : Nat) : ArgOrder n :=
  ⟨(List.range n).reverse, List.reverse_perm _⟩

/-- Evaluation of the arguments of a call in the order `ord`: the conversion operator of each
position runs in turn; the first one that throws ends the evaluation. -/
def evalArgs (R : Rcpp) (failures : List (Option R.Exn)) : List Nat → Body R Unit
  | [] => ⟨[], .ok ()⟩
  | i :: rest =>
    match failures.getD i none with
    | some e => ⟨[.arg i], .error e⟩
    | none => ⟨.arg i :: (evalArgs R failures rest).trace, (evalArgs R failures rest).result⟩

/-- Entering a native routine. -/
def callNative (R : Rcpp) (N : Natives R) (r : Routine) (args : NativeArgs R r) :
    Body R (NativeRet R r) :=
  ⟨[.native r args], N r args⟩

/-! ## The forwarding entry points (lines 10-70) -/

/-- The entry point of lines 10-22.  Lines 13-18 declare the six input parameters; line 19
evaluates the arguments of the native call in the compiler's order `ord`, enters
`create_lazy_vector` with the converted values in parameter order, wraps the result and assigns
it to `rcpp_result_gen`; line 20 returns it.  All of it is inside `BEGIN_RCPP` / `END_RCPP`. -/
def _scater_create_lazy_vector (R : Rcpp) (N : Natives R) (ord : ArgOrder 6)
    (matSEXP dimSEXP idxSEXP getcolSEXP matclassSEXP typeSEXP : R.SEXP) : Run R :=
  BEGIN_END_RCPP R <|
    let mat : InputParameter R .SEXP := ⟨matSEXP⟩
    let dim : InputParameter R .SEXP := ⟨dimSEXP⟩
    let idx : InputParameter R .SEXP := ⟨idxSEXP⟩
    let getcol : InputParameter R .bool := ⟨getcolSEXP⟩
    let matclass : InputParameter R .int := ⟨matclassSEXP⟩
    let type : InputParameter R .int := ⟨typeSEXP⟩
    (evalArgs R [mat.failure, dim.failure, idx.failure, getcol.failure, matclass.failure,
        type.failure] ord.val).bind fun _ =>
    (Body.arg mat).bind fun a0 =>
    (Body.arg dim).bind fun a1 =>
    (Body.arg idx).bind fun a2 =>
    (Body.arg getcol).bind fun a3 =>
    (Body.arg matclass).bind fun a4 =>
    (Body.arg type).bind fun a5 =>
    (callNative R N .create_lazy_vector (a0, a1, a2, a3, a4, a5)).bind fun v =>
    let rcpp_result_gen : RObject R := ⟨R.wrap .SEXP v⟩
    Body.pure rcpp_result_gen.sexp

/-- The entry point of lines 25-35: four input parameters (lines 28-31), the call of
`per_cell_qc` and the wrap of its result (line 32), the return (line 33). -/
def _scater_per_cell_qc (R : Rcpp) (N : Natives R) (ord : ArgOrder 4)
    (matrixSEXP featconSEXP topSEXP limitSEXP : R.SEXP) : Run R :=
  BEGIN_END_RCPP R <|
    let matrix : InputParameter R .RObject := ⟨matrixSEXP⟩
    let featcon : InputParameter R .RcppList := ⟨featconSEXP⟩
    let top : InputParameter R .IntegerVector := ⟨topSEXP⟩
    let limit : InputParameter R .SEXP := ⟨limitSEXP⟩
    (evalArgs R [matrix.failure, featcon.failure, top.failure, limit.failure] ord.val).bind
      fun _ =>
    (Body.arg matrix).bind fun a0 =>
    (Body.arg featcon).bind fun a1 =>
    (Body.arg top).bind fun a2 =>
    (Body.arg limit).bind fun a3 =>
    (callNative R N .per_cell_qc (a0, a1, a2, a3)).bind fun v =>
    let rcpp_result_gen : RObject R := ⟨R.wrap .RObject v⟩
    Body.pure rcpp_result_gen.sexp

/-- The entry point of lines 38-47: three input parameters (lines 41-43), the call of
`per_feature_qc` and the wrap of its result (line 44), the return (line 45). -/
def _scater_per_feature_qc (R : Rcpp) (N : Natives R) (ord : ArgOrder 3)
    (matrixSEXP cellconSEXP limitSEXP : R.SEXP) : Run R :=
  BEGIN_END_RCPP R <|
    let matrix : InputParameter R .RObject := ⟨matrixSEXP⟩
    let cellcon : InputParameter R .RcppList := ⟨cellconSEXP⟩
    let limit : InputParameter R .SEXP := ⟨limitSEXP⟩
    (evalArgs R [matrix.failure, cellcon.failure, limit.failure] ord.val).bind fun _ =>
    (Body.arg matrix).bind fun a0 =>
    (Body.arg cellcon).bind fun a1 =>
    (Body.arg limit).bind fun a2 =>
    (callNative R N .per_feature_qc (a0, a1, a2)).bind fun v =>
    let rcpp_result_gen : RObject R := ⟨R.wrap .RObject v⟩
    Body.pure rcpp_result_gen.sexp

/-- The entry point of lines 50-58: two input parameters (lines 53-54), the call of
`top_cumprop` and the wrap of its result (line 55), the return (line 56). -/
def _scater_top_cumprop (R : Rcpp) (N : Natives R) (ord : ArgOrder 2)
    (matrixSEXP topSEXP : R.SEXP) : Run R :=
  BEGIN_END_RCPP R <|
    let matrix : InputParameter R .RObject := ⟨matrixSEXP⟩
    let top : InputParameter R .IntegerVector := ⟨topSEXP⟩
    (evalArgs R [matrix.failure, top.failure] ord.val).bind fun _ =>
    (Body.arg matrix).bind fun a0 =>
    (Body.arg top).bind fun a1 =>
    (callNative R N .top_cumprop (a0, a1)).bind fun v =>
    let rcpp_result_gen : RObject R := ⟨R.wrap .NumericMatrix v⟩
    Body.pure rcpp_result_gen.sexp

/-- The entry point of lines 61-70: three input parameters (lines 64-66), the call of
`sum_row_counts` and the wrap of its result (line 67), the return (line 68). -/
def _scater_sum_row_counts (R : Rcpp) (N : Natives R) (ord : ArgOrder 3)
    (countsSEXP genesSEXP runsSEXP : R.SEXP) : Run R :=
  BEGIN_END_RCPP R <|
    let counts : InputParameter R .RObject := ⟨countsSEXP⟩
    let genes : InputParameter R .IntegerVector := ⟨genesSEXP⟩
    let runs : InputParameter R .IntegerVector := ⟨runsSEXP⟩
    (evalArgs R [counts.failure, genes.failure, runs.failure] ord.val).bind fun _ =>
    (Body.arg counts).bind fun a0 =>
    (Body.arg genes).bind fun a1 =>
    (Body.arg runs).bind fun a2 =>
    (callNative R N .sum_row_counts (a0, a1, a2)).bind fun v =>
    let rcpp_result_gen : RObject R := ⟨R.wrap .RObject v⟩
    Body.pure rcpp_result_gen.sexp

/-! ## The routine table (lines 72-79) -/

/-- A pointer to one of the five `extern "C"` forwarding functions, the `DL_FUNC` of a table
entry. -/
inductive DL_FUNC where
  | _scater_create_lazy_vector
  | _scater_per_cell_qc
  | _scater_per_feature_qc
  | _scater_top_cumprop
  | _scater_sum_row_counts
  deriving DecidableEq, Repr

/-- The number of `SEXP` parameters in the definition of a forwarding function
(lines 10, 25, 38, 50, 61). -/
def DL_FUNC.numParams : DL_FUNC → Nat
  | ._scater_create_lazy_vector => 6
  | ._scater_per_cell_qc => 4
  | ._scater_per_feature_qc => 3
  | ._scater_top_cumprop => 2
  | ._scater_sum_row_counts => 3

/-- The native routine named in the call expression of a forwarding function
(lines 19, 32, 44, 55, 67). -/
def DL_FUNC.native : DL_FUNC → Routine
  | ._scater_create_lazy_vector => .create_lazy_vector
  | ._scater_per_cell_qc => .per_cell_qc
  | ._scater_per_feature_qc => .per_feature_qc
  | ._scater_top_cumprop => .top_cumprop
  | ._scater_sum_row_counts => .sum_row_counts

/-- The C identifier of a forwarding function. -/
def DL_FUNC.symbol : DL_FUNC → String
  | ._scater_create_lazy_vector => "_scater_create_lazy_vector"
  | ._scater_per_cell_qc => "_scater_per_cell_qc"
  | ._scater_per_feature_qc => "_scater_per_feature_qc"
  | ._scater_top_cumprop => "_scater_top_cumprop"
  | ._scater_sum_row_counts => "_scater_sum_row_counts"

/-- The compiler's argument order at the call expression of each forwarding function. -/
abbrev Compiler : Type := (f : DL_FUNC) → ArgOrder f.numParams

/-- Every call evaluated left to right. -/
def Compiler.leftToRight : Compiler := fun f => ArgOrder.leftToRight f.numParams

/-- Every call evaluated right to left. -/
def Compiler.rightToLeft : Compiler := fun f => ArgOrder.rightToLeft f.numParams

/-- Calling through a function pointer with the argument list `args`.  The call is defined
when the list has as many elements as the function has parameters; otherwise the C call has
no defined behaviour (`none`). -/
def DL_FUNC.call (R : Rcpp) (N : Natives R) (cc : Compiler) :
    DL_FUNC → List R.SEXP → Option (Run R)
  | ._scater_create_lazy_vector, [a0, a1, a2, a3, a4, a5] =>
    some (Scater._scater_create_lazy_vector R N (cc ._scater_create_lazy_vector) a0 a1 a2 a3 a4 a5)
  | ._scater_per_cell_qc, [a0, a1, a2, a3] =>
    some (Scater._scater_per_cell_qc R N (cc ._scater_per_cell_qc) a0 a1 a2 a3)
  | ._scater_per_feature_qc, [a0, a1, a2] =>
    some (Scater._scater_per_feature_qc R N (cc ._scater_per_feature_qc) a0 a1 a2)
  | ._scater_top_cumprop, [a0, a1] =>
    some (Scater._scater_top_cumprop R N (cc ._scater_top_cumprop) a0 a1)
  | ._scater_sum_row_counts, [a0, a1, a2] =>
    some (Scater._scater_sum_row_counts R N (cc ._scater_sum_row_counts) a0 a1 a2)
  | _, _ => none

/-- The struct `R_CallMethodDef`: a name, a function pointer and a declared number of
arguments; `NULL` is `none`. -/
structure R_CallMethodDef where
  name : Option String
  fn : Option DL_FUNC
  numArgs : Int
  deriving DecidableEq, Repr

/-- The array `CallEntries` of lines 72-79, the terminating entry included. -/
def CallEntries : List R_CallMethodDef :=
  [ ⟨some "_scater_create_lazy_vector", some ._scater_create_lazy_vector, 6⟩,
    ⟨some "_scater_per_cell_qc", some ._scater_per_cell_qc, 4⟩,
    ⟨some "_scater_per_feature_qc", some ._scater_per_feature_qc, 3⟩,
    ⟨some "_scater_top_cumprop", some ._scater_top_cumprop, 2⟩,
    ⟨some "_scater_sum_row_counts", some ._scater_sum_row_counts, 3⟩,
    ⟨none, none, 0⟩ ]

/-- The entries of a `NULL`-terminated table: those before the first entry whose name is
`NULL`. -/
def R_CallMethodDef.entries (table : List R_CallMethodDef) : List R_CallMethodDef :=
  table.takeWhile fun e => e.name.isSome

/-- The names of the entries of a table. -/
def R_CallMethodDef.names (table : List R_CallMethodDef) : List String :=
  (R_CallMethodDef.entries table).filterMap fun e => e.name

/-! ## Module load (lines 81-86) -/

/-- The struct `R_CMethodDef` of the `.C` and `.Fortran` tables, which the file leaves
`NULL`. -/
structure R_CMethodDef where
  name : Option String
  numArgs : Int
  deriving DecidableEq, Repr

/-- The registration state the host keeps for a loaded module. -/
structure DllInfo where
  handle : Bool
  useDynamicSymbols : Bool
  CSymbols : List R_CMethodDef
  CallSymbols : List R_CallMethodDef
  FortranSymbols : List R_CMethodDef
  ExternalSymbols : List R_CallMethodDef
  deriving DecidableEq, Repr

/-- The calls that `R_init_scater` makes. -/
inductive InitCall where
  | R_registerRoutines (croutines : Option (List R_CMethodDef))
      (callRoutines : Option (List R_CallMethodDef))
      (fortranRoutines : Option (List R_CMethodDef))
      (externalRoutines : Option (List R_CallMethodDef))
  | R_useDynamicSymbols (value : Bool)
  | init_lazy_vector
  deriving DecidableEq, Repr

/-- The state a load hook works on: the module handle, the lazy-vector subsystem, and the
calls made so far. -/
structure Loader (L : Type) where
  dll : DllInfo
  lazyVector : L
  calls : List InitCall

/-- Modelled from the spec: the host's `R_registerRoutines`, which is "register a fixed table
mapping external symbolic names to native function pointers and declared arities".  Each table
that is not `NULL` replaces the registered routines of its kind with the table's entries up to
the terminating one; the call leaves name-based lookup as it is for a module with a handle. -/
def Loader.R_registerRoutines {L : Type} (s : Loader L)
    (croutines : Option (List R_CMethodDef)) (callRoutines : Option (List R_CallMethodDef))
    (fortranRoutines : Option (List R_CMethodDef))
    (externalRoutines : Option (List R_CallMethodDef)) : Loader L :=
  { s with
    dll :=
      { handle := s.dll.handle
        useDynamicSymbols := s.dll.handle
        CSymbols := match croutines with
          | none => s.dll.CSymbols
          | some t => t.takeWhile fun e => e.name.isSome
        CallSymbols := match callRoutines with
          | none => s.dll.CallSymbols
          | some t => R_CallMethodDef.entries t
        FortranSymbols := match fortranRoutines with
          | none => s.dll.FortranSymbols
          | some t => t.takeWhile fun e => e.name.isSome
        ExternalSymbols := match externalRoutines with
          | none => s.dll.ExternalSymbols
          | some t => R_CallMethodDef.entries t }
    calls := s.calls ++
      [.R_registerRoutines croutines callRoutines fortranRoutines externalRoutines] }

/-- Modelled from the spec: the host's `R_useDynamicSymbols`, which with `FALSE` is "disable
dynamic (name-based) symbol lookup so only the registered table is reachable". -/
def Loader.R_useDynamicSymbols {L : Type} (s : Loader L) (value : Bool) : Loader L :=
  { s with
    dll := { s.dll with useDynamicSymbols := value }
    calls := s.calls ++ [.R_useDynamicSymbols value] }

/-- Modelled from the spec: `init_lazy_vector`, declared at line 81 and defined elsewhere in
the repository, is "one extra initialization hook for a lazy-vector subsystem": it is given the
module handle and sets up that subsystem; what it sets up is the parameter `init`. -/
def Loader.init_lazy_vector {L : Type} (init : DllInfo → L → L) (s : Loader L) : Loader L :=
  { s with
    lazyVector := init s.dll s.lazyVector
    calls := s.calls ++ [.init_lazy_vector] }

/-- The load hook of lines 82-86. -/
def R_init_scater {L : Type} (init : DllInfo → L → L) (s : Loader L) : Loader L :=
  let s1 := s.R_registerRoutines none (some CallEntries) none none
  let s2 := s1.R_useDynamicSymbols false
  s2.init_lazy_vector init

/-! ## The host's lookup and `.Call` dispatch -/

/-- What a name resolves to: an entry of the registered table, or an exported symbol of the
shared object found by name. -/
inductive Symbol where
  | registered (e : R_CallMethodDef)
  | dynamic (f : DL_FUNC)
  deriving DecidableEq, Repr

/-- Modelled from the spec: the host's resolution of a `.Call` name in a module.  The registered
table is searched first; the exported symbols of the shared object (`exports`) are searched
only while dynamic lookup is enabled. -/
def R_FindSymbol (dll : DllInfo) (exports : String → Option DL_FUNC) (name : String) :
    Option Symbol :=
  match dll.CallSymbols.find? fun e => e.name == some name with
  | some e => some (.registered e)
  | none => if dll.useDynamicSymbols then (exports name).map .dynamic else none

/-- The ways a `.Call` through the host can go. -/
inductive DotCall (R : Rcpp) where
  | notFound
  | wrongArity (expected : Int) (given : Nat)
  | undefined
  | ran (run : Run R)

/-- Calling a resolved function pointer. -/
def DotCall.invoke (R : Rcpp) (N : Natives R) (cc : Compiler) (args : List R.SEXP) :
    Option DL_FUNC → DotCall R
  | none => .undefined
  | some f =>
    match f.call R N cc args with
    | none => .undefined
    | some run => .ran run

/-- Modelled from the spec: the host's `.Call` dispatch.  "Invoking a registered entry point
with a mismatched argument count is rejected by the host runtime before the forwarding
function executes"; a declared arity of `-1` stands for "not declared". -/
def dotCall (R : Rcpp) (N : Natives R) (cc : Compiler) (dll : DllInfo)
    (exports : String → Option DL_FUNC) (name : String) (args : List R.SEXP) : DotCall R :=
  match R_FindSymbol dll exports name with
  | none => .notFound
  | some (.registered e) =>
    if -1 < e.numArgs ∧ e.numArgs ≠ (args.length : Int) then .wrongArity e.numArgs args.length
    else DotCall.invoke R N cc args e.fn
  | some (.dynamic f) => DotCall.invoke R N cc args (some f)

/-- A session of the host with the module: the loader state and the results of the `.Call`s
made so far. -/
structure Session (R : Rcpp) (L : Type) where
  loader : Loader L
  results : List (DotCall R)

/-- The session right after the module is loaded into a host whose handle state is `dll` and
whose lazy-vector subsystem is `lazyVector`. -/
def Session.load (R : Rcpp) {L : Type} (init : DllInfo → L → L) (dll : DllInfo)
    (lazyVector : L) : Session R L :=
  ⟨R_init_scater init ⟨dll, lazyVector, []⟩, []⟩

/-- One `.Call` in a session.  The forwarding functions are not given the module handle, so
the loader state stays as it is. -/
def Session.dotCall {R : Rcpp} {L : Type} (N : Natives R) (cc : Compiler)
    (exports : String → Option DL_FUNC) (s : Session R L) (name : String)
    (args : List R.SEXP) : Session R L :=
  { s with results := s.results ++ [Scater.dotCall R N cc s.loader.dll exports name args] }

/-- The sessions that can be reached after load by any number of `.Call`s. -/
inductive Session.Reachable {R : Rcpp} {L : Type} (N : Natives R) (cc : Compiler)
    (exports : String → Option DL_FUNC) (init : DllInfo → L → L) (dll : DllInfo)
    (lazyVector : L) : Session R L → Prop where
  | load : Session.Reachable N cc exports init dll lazyVector
      (Session.load R init dll lazyVector)
  | dotCall (s : Session R L) (name : String) (args : List R.SEXP) :
      Session.Reachable N cc exports init dll lazyVector s →
      Session.Reachable N cc exports init dll lazyVector (s.dotCall N cc exports name args)

/-! ## Reference notions used to state the properties -/

/-- The exception `as<T>` throws on `x`, if it throws. -/
def Rcpp.failure (R : Rcpp) (T : CType) (x : R.SEXP) : Option R.Exn :=
  match R.as T x with
  | .error e => some e
  | .ok _ => none

/-- Position by position, the conversion failure of each argument against the parameter type
at the same position. -/
def argFailures (R : Rcpp) : List CType → List R.SEXP → List (Option R.Exn)
  | T :: Ts, x :: xs => R.failure T x :: argFailures R Ts xs
  | _, _ => []

/-- Reference conversion of an argument list: argument `i` is converted to parameter type `i`,
from the first to the last, and the first failure is the result.  It is `none` when
the two lists differ in length. -/
def convertAll (R : Rcpp) : (Ts : List CType) → List R.SEXP → Option (Except R.Exn (ArgTuple R Ts))
  | [], [] => some (.ok PUnit.unit)
  | [], _ :: _ => none
  | [T], [x] => some (R.as T x)
  | [_], [] => none
  | [_], _ :: _ :: _ => none
  | _ :: _ :: _, [] => none
  | T :: U :: Ts, x :: xs =>
    match convertAll R (U :: Ts) xs with
    | none => none
    | some rest =>
      some (match R.as T x with
        | .error e => .error e
        | .ok a =>
          match rest with
          | .error e => .error e
          | .ok tail => .ok (a, tail))

/-- The component at position `i` of a tuple of native values, with its parameter type. -/
def ArgTuple.component (R : Rcpp) :
    (Ts : List CType) → ArgTuple R Ts → Nat → Option (Σ T : CType, T.denote R)
  | [], _, _ => none
  | [T], a, 0 => some ⟨T, a⟩
  | [_], _, _ + 1 => none
  | T :: _ :: _, a, 0 => some ⟨T, a.1⟩
  | _ :: U :: Ts, a, i + 1 => ArgTuple.component R (U :: Ts) a.2 i

/-- An event is the entry into some native routine. -/
def Event.isNative {R : Rcpp} : Event R → Bool
  | .native _ _ => true
  | .arg _ => false

/-- The interface table of the specification ("Registered entry points and arities"): exported
name and arity. -/
def specInterface : List (String × Nat) :=
  [ ("create_lazy_vector", 6),
    ("per_cell_qc", 4),
    ("per_feature_qc", 3),
    ("top_cumprop", 2),
    ("sum_row_counts", 3) ]

/-- The arity the specification's interface table gives for a name. -/
def specArity (name : String) : Option Nat :=
  (specInterface.find? fun p => p.1 == name).map fun p => p.2

/-! ## The native `sum_row_counts`, from the specification -/

/-- What the specification's scenario for `sum_row_counts` speaks of: the row count of a counts
matrix, the length of an integer vector, the aggregated result, and the exception of a length
mismatch. -/
structure CountsModel (R : Rcpp) where
  nrow : RObject R → Nat
  length : R.IntegerVector → Nat
  aggregate : RObject R → R.IntegerVector → R.IntegerVector → RObject R
  mismatch : R.Exn

/-- Modelled from the spec: the native routine `sum_row_counts`, declared at line 60 and defined
elsewhere in the repository.  Called "with a group-id vector whose length mismatches the
matrix's row count" it "signals an error rather than reading out of bounds"; otherwise it
"succeeds and returns an opaque aggregated result". -/
def sum_row_counts {R : Rcpp} (M : CountsModel R) (counts : RObject R)
    (genes runs : R.IntegerVector) : Except R.Exn (RObject R) :=
  if M.length genes ≠ M.nrow counts then .error M.mismatch
  else .ok (M.aggregate counts genes runs)

/-- The native routines with `sum_row_counts` as the specification describes it. -/
def Natives.withSumRowCounts {R : Rcpp} (N : Natives R) (M : CountsModel R) : Natives R
  | .sum_row_counts => fun args => sum_row_counts M args.1 args.2.1 args.2.2
  | .create_lazy_vector => N .create_lazy_vector
  | .per_cell_qc => N .per_cell_qc
  | .per_feature_qc => N .per_feature_qc
  | .top_cumprop => N .top_cumprop

/-! ## A small concrete host, to evaluate the definitions on -/

/-- Host values of the concrete host. -/
inductive Value where
  | null
  | logical (b : Bool)
  | integer (xs : List Int)
  | list (n : Nat)
  | matrix (nrow ncol : Nat)
  deriving DecidableEq, Repr

/-- A concrete instance of the host and library parameters: exceptions are messages. -/
def demoHost : Rcpp where
  SEXP := Value
  Exn := String
  RcppList := Nat
  IntegerVector := List Int
  NumericMatrix := Nat × Nat
  as_bool
    | .logical b => .ok b
    | _ => .error "expecting a single logical value"
  as_int
    | .integer [n] => .ok n
    | _ => .error "expecting a single integer value"
  as_List
    | .list n => .ok n
    | _ => .error "expecting a list"
  as_IntegerVector
    | .integer xs => .ok xs
    | _ => .error "expecting an integer vector"
  wrap_NumericMatrix := fun m => .matrix m.1 m.2

/-- Native routines of the concrete host: each returns a small value that depends on its
arguments; `create_lazy_vector` throws on a negative element type. -/
def demoNatives : Natives demoHost
  | .create_lazy_vector => fun (args : Value × Value × Value × Bool × Int × Int) =>
    if args.2.2.2.2.2 < 0 then .error "unsupported element type"
    else .ok (if args.2.2.2.1 = true then args.1 else args.2.1)
  | .per_cell_qc => fun (args : RObject demoHost × Nat × List Int × Value) =>
    .ok ⟨.list (args.2.1 + args.2.2.1.length)⟩
  | .per_feature_qc => fun (args : RObject demoHost × Nat × Value) => .ok ⟨.list args.2.1⟩
  | .top_cumprop => fun (args : RObject demoHost × List Int) => .ok (args.2.length, 1)
  | .sum_row_counts => fun (args : RObject demoHost × List Int × List Int) =>
    .ok ⟨.integer (args.2.1 ++ args.2.2)⟩

/-- The counts model of the concrete host: a matrix knows its row count. -/
def demoCounts : CountsModel demoHost where
  nrow := fun m => match m.sexp with
    | .matrix nrow _ => nrow
    | _ => 0
  length := fun (v : List Int) => v.length
  aggregate := fun _ (genes runs : List Int) => ⟨.integer (genes ++ runs)⟩
  mismatch := "length of group ids differs from the number of rows"

/-- A fresh module handle: nothing registered, dynamic lookup enabled. -/
def DllInfo.fresh : DllInfo := ⟨true, true, [], [], [], []⟩

/-- The exported symbols of the shared object: the five forwarding functions under their
C identifiers. -/
def demoExports (name : String) : Option DL_FUNC :=
  [DL_FUNC._scater_create_lazy_vector, ._scater_per_cell_qc, ._scater_per_feature_qc,
    ._scater_top_cumprop, ._scater_sum_row_counts].find? fun f => f.symbol == name

/-! ## Lemmas on bodies and on the evaluation of arguments -/

theorem getD_none_of_forall {α : Type} (F : List (Option α)) (h : ∀ x ∈ F, x = none) (i : Nat) :
    F.getD i none = none := by
  induction F generalizing i with
  | nil => simp
  | cons a t ih =>
    cases i with
    | zero => simpa using h a (by simp)
    | succ n => simpa using ih (fun x hx => h x (by simp [hx])) n

theorem lt_length_of_getD_some {α : Type} (F : List (Option α)) (i : Nat) (e : α)
    (h : F.getD i none = some e) : i < F.length := by
  by_contra hlt
  have : F.getD i none = none := by
    rw [List.getD_eq_getElem?_getD, List.getElem?_eq_none (by omega)]
    rfl
  rw [this] at h
  cases h

theorem argFailures_length (R : Rcpp) (Ts : List CType) (xs : List R.SEXP)
    (h : xs.length = Ts.length) : (argFailures R Ts xs).length = Ts.length := by
  induction Ts generalizing xs with
  | nil => cases xs <;> simp [argFailures]
  | cons T Ts ih =>
    cases xs with
    | nil => simp at h
    | cons x xs => simpa [argFailures] using ih xs (by simpa using h)

theorem Body.bind_error {R : Rcpp} {α β : Type} (t : List (Event R)) (e : R.Exn)
    (f : α → Body R β) : (Body.mk t (.error e) : Body R α).bind f = ⟨t, .error e⟩ := rfl

theorem Body.bind_ok {R : Rcpp} {α β : Type} (t : List (Event R)) (a : α)
    (f : α → Body R β) :
    (Body.mk t (.ok a) : Body R α).bind f = ⟨t ++ (f a).trace, (f a).result⟩ := rfl

theorem evalArgs_of_no_failure (R : Rcpp) (F : List (Option R.Exn)) (ord : List Nat)
    (h : ∀ i ∈ ord, F.getD i none = none) :
    evalArgs R F ord = ⟨ord.map .arg, .ok ()⟩ := by
  induction ord with
  | nil => rfl
  | cons i rest ih =>
    have hi : F.getD i none = none := h i (by simp)
    have hrest := ih (fun j hj => h j (by simp [hj]))
    simp only [evalArgs, hi, hrest, List.map_cons]

theorem evalArgs_of_failure (R : Rcpp) (F : List (Option R.Exn)) (ord : List Nat)
    (h : ∃ i ∈ ord, ∃ e, F.getD i none = some e) :
    ∃ pre j post e, ord = pre ++ j :: post ∧ (∀ k ∈ pre, F.getD k none = none) ∧
      F.getD j none = some e ∧ evalArgs R F ord = ⟨(pre ++ [j]).map .arg, .error e⟩ := by
  induction ord with
  | nil => simp at h
  | cons i rest ih =>
    cases hi : F.getD i none with
    | some e =>
      exact ⟨[], i, rest, e, rfl, by simp, hi, by simp only [evalArgs, hi]; rfl⟩
    | none =>
      have hrest : ∃ j ∈ rest, ∃ e, F.getD j none = some e := by
        obtain ⟨j, hj, e, he⟩ := h
        rcases List.mem_cons.mp hj with rfl | hj
        · rw [hi] at he; cases he
        · exact ⟨j, hj, e, he⟩
      obtain ⟨pre, j, post, e, hord, hpre, hj, hev⟩ := ih hrest
      refine ⟨i :: pre, j, post, e, by simp [hord], ?_, hj, ?_⟩
      · intro k hk
        rcases List.mem_cons.mp hk with rfl | hk
        · exact hi
        · exact hpre k hk
      · simp only [evalArgs, hi, hev]; rfl

theorem BEGIN_END_RCPP_outcome (R : Rcpp) (body : Body R R.SEXP) :
    (∃ v, body.result = .ok v ∧ (BEGIN_END_RCPP R body).outcome = .value v) ∨
    (∃ e, body.result = .error e ∧ (BEGIN_END_RCPP R body).outcome = .hostError e) := by
  rcases body with ⟨t, r⟩
  cases r with
  | ok v => exact Or.inl ⟨v, rfl, rfl⟩
  | error e => exact Or.inr ⟨e, rfl, rfl⟩

/-- Every forwarding function has the same shape: inside the `try` block the arguments of the
native call are evaluated first, in the compiler's order. -/
theorem DL_FUNC.call_shape (R : Rcpp) (N : Natives R) (cc : Compiler) (f : DL_FUNC)
    (args : List R.SEXP) (h : args.length = f.numParams) :
    ∃ k : Unit → Body R R.SEXP, f.call R N cc args = some (BEGIN_END_RCPP R
      ((evalArgs R (argFailures R (paramTypes f.native) args) (cc f).val).bind k)) := by
  cases f with
  | _scater_create_lazy_vector =>
    match args, h with
    | [_, _, _, _, _, _], _ => exact ⟨_, rfl⟩
  | _scater_per_cell_qc =>
    match args, h with
    | [_, _, _, _], _ => exact ⟨_, rfl⟩
  | _scater_per_feature_qc =>
    match args, h with
    | [_, _, _], _ => exact ⟨_, rfl⟩
  | _scater_top_cumprop =>
    match args, h with
    | [_, _], _ => exact ⟨_, rfl⟩
  | _scater_sum_row_counts =>
    match args, h with
    | [_, _, _], _ => exact ⟨_, rfl⟩

theorem convertAll_isSome_length (R : Rcpp) (Ts : List CType) (xs : List R.SEXP)
    (c : Except R.Exn (ArgTuple R Ts)) (h : convertAll R Ts xs = some c) :
    xs.length = Ts.length := by
  induction Ts generalizing xs with
  | nil => cases xs <;> simp [convertAll] at h ⊢
  | cons T Ts ih =>
    cases Ts with
    | nil =>
      rcases xs with _ | ⟨x, _ | ⟨y, ys⟩⟩ <;> simp [convertAll] at h ⊢
    | cons U Us =>
      cases xs with
      | nil => simp [convertAll] at h
      | cons x xs =>
        cases hrest : convertAll R (U :: Us) xs with
        | none => simp [convertAll, hrest] at h
        | some rest =>
          have := ih xs rest hrest
          simp [this]

/-- When every conversion succeeds, a forwarding function evaluates its arguments, enters its
native routine once with the converted tuple, and ends with the wrapped result or with the
host error made from the routine's exception. -/
theorem DL_FUNC.call_of_converted (R : Rcpp) (N : Natives R) (cc : Compiler) (f : DL_FUNC)
    (args : List R.SEXP) (a : NativeArgs R f.native)
    (h : convertAll R (paramTypes f.native) args = some (.ok a)) :
    f.call R N cc args =
      some ⟨(cc f).val.map .arg ++ [.native f.native a],
        match N f.native a with
        | .ok v => .value (R.wrap (retType f.native) v)
        | .error e => .hostError e⟩ := by
  have hlen := convertAll_isSome_length R _ args _ h
  cases f with
  | _scater_create_lazy_vector =>
    simp only [DL_FUNC.native, paramTypes, List.length] at hlen
    match args, hlen with
    | [a0, a1, a2, a3, a4, a5], _ =>
      simp only [DL_FUNC.native, paramTypes, convertAll, Rcpp.as] at h
      rcases h3 : R.as_bool a3 with e3 | v3 <;>
      rcases h4 : R.as_int a4 with e4 | v4 <;>
      rcases h5 : R.as_int a5 with e5 | v5 <;>
        simp [h3, h4, h5] at h
      subst h
      simp only [DL_FUNC.call, Scater._scater_create_lazy_vector, InputParameter.failure,
        InputParameter.get, Rcpp.as, h3, h4, h5, Body.arg, callNative, Body.pure, DL_FUNC.native]
      rw [evalArgs_of_no_failure R _ _ (fun i _ => getD_none_of_forall _ (by simp) i)]
      cases hN : N .create_lazy_vector (a0, a1, a2, v3, v4, v5) <;>
        simp [Body.bind, BEGIN_END_RCPP, hN, Rcpp.wrap, retType]
  | _scater_per_cell_qc =>
    simp only [DL_FUNC.native, paramTypes, List.length] at hlen
    match args, hlen with
    | [a0, a1, a2, a3], _ =>
      simp only [DL_FUNC.native, paramTypes, convertAll, Rcpp.as] at h
      rcases h1 : R.as_List a1 with e1 | v1 <;>
      rcases h2 : R.as_IntegerVector a2 with e2 | v2 <;>
        simp [h1, h2] at h
      subst h
      simp only [DL_FUNC.call, Scater._scater_per_cell_qc, InputParameter.failure,
        InputParameter.get, Rcpp.as, h1, h2, Body.arg, callNative, Body.pure, DL_FUNC.native]
      rw [evalArgs_of_no_failure R _ _ (fun i _ => getD_none_of_forall _ (by simp) i)]
      cases hN : N .per_cell_qc (⟨a0⟩, v1, v2, a3) <;>
        simp [Body.bind, BEGIN_END_RCPP, hN, Rcpp.wrap, retType]
  | _scater_per_feature_qc =>
    simp only [DL_FUNC.native, paramTypes, List.length] at hlen
    match args, hlen with
    | [a0, a1, a2], _ =>
      simp only [DL_FUNC.native, paramTypes, convertAll, Rcpp.as] at h
      rcases h1 : R.as_List a1 with e1 | v1 <;>
        simp [h1] at h
      subst h
      simp only [DL_FUNC.call, Scater._scater_per_feature_qc, InputParameter.failure,
        InputParameter.get, Rcpp.as, h1, Body.arg, callNative, Body.pure, DL_FUNC.native]
      rw [evalArgs_of_no_failure R _ _ (fun i _ => getD_none_of_forall _ (by simp) i)]
      cases hN : N .per_feature_qc (⟨a0⟩, v1, a2) <;>
        simp [Body.bind, BEGIN_END_RCPP, hN, Rcpp.wrap, retType]
  | _scater_top_cumprop =>
    simp only [DL_FUNC.native, paramTypes, List.length] at hlen
    match args, hlen with
    | [a0, a1], _ =>
      simp only [DL_FUNC.native, paramTypes, convertAll, Rcpp.as] at h
      rcases h1 : R.as_IntegerVector a1 with e1 | v1 <;>
        simp [h1] at h
      subst h
      simp only [DL_FUNC.call, Scater._scater_top_cumprop, InputParameter.failure,
        InputParameter.get, Rcpp.as, h1, Body.arg, callNative, Body.pure, DL_FUNC.native]
      rw [evalArgs_of_no_failure R _ _ (fun i _ => getD_none_of_forall _ (by simp) i)]
      cases hN : N .top_cumprop (⟨a0⟩, v1) <;>
        simp [Body.bind, BEGIN_END_RCPP, hN, Rcpp.wrap, retType]
  | _scater_sum_row_counts =>
    simp only [DL_FUNC.native, paramTypes, List.length] at hlen
    match args, hlen with
    | [a0, a1, a2], _ =>
      simp only [DL_FUNC.native, paramTypes, convertAll, Rcpp.as] at h
      rcases h1 : R.as_IntegerVector a1 with e1 | v1 <;>
      rcases h2 : R.as_IntegerVector a2 with e2 | v2 <;>
        simp [h1, h2] at h
      subst h
      simp only [DL_FUNC.call, Scater._scater_sum_row_counts, InputParameter.failure,
        InputParameter.get, Rcpp.as, h1, h2, Body.arg, callNative, Body.pure, DL_FUNC.native]
      rw [evalArgs_of_no_failure R _ _ (fun i _ => getD_none_of_forall _ (by simp) i)]
      cases hN : N .sum_row_counts (⟨a0⟩, v1, v2) <;>
        simp [Body.bind, BEGIN_END_RCPP, hN, Rcpp.wrap, retType]

/-- When some conversion fails, a forwarding function stops at the first failing argument in
the compiler's order and ends with the host error made from that argument's exception. -/
theorem DL_FUNC.call_of_failure (R : Rcpp) (N : Natives R) (cc : Compiler) (f : DL_FUNC)
    (args : List R.SEXP) (hlen : args.length = f.numParams)
    (h : ∃ i e, (argFailures R (paramTypes f.native) args).getD i none = some e) :
    ∃ pre j post e, (cc f).val = pre ++ j :: post ∧
      (∀ k ∈ pre, (argFailures R (paramTypes f.native) args).getD k none = none) ∧
      (argFailures R (paramTypes f.native) args).getD j none = some e ∧
      f.call R N cc args = some ⟨(pre ++ [j]).map .arg, .hostError e⟩ := by
  obtain ⟨i, e, hie⟩ := h
  have hnum : (paramTypes f.native).length = f.numParams := by cases f <;> rfl
  have hi : i < f.numParams := by
    have := lt_length_of_getD_some _ i e hie
    rwa [argFailures_length R _ _ (by rw [hlen, hnum]), hnum] at this
  have hmem : i ∈ (cc f).val := (cc f).property.mem_iff.mpr (List.mem_range.mpr hi)
  obtain ⟨pre, j, post, e', hord, hpre, hj, hev⟩ :=
    evalArgs_of_failure R (argFailures R (paramTypes f.native) args) (cc f).val ⟨i, hmem, e, hie⟩
  obtain ⟨k, hk⟩ := DL_FUNC.call_shape R N cc f args hlen
  refine ⟨pre, j, post, e', hord, hpre, hj, ?_⟩
  rw [hk, hev]
  rfl

/-! ## The forwarding entry points: outcomes -/

/-- C1: for each of the five forwarding entry points and every argument list of its arity, the
call is defined and ends either by returning a value or by signalling a host error, never with
an exception leaving the function; it ends with a host error whenever the conversion of some
argument throws, and with the host error of the native routine's exception whenever the native
routine throws. -/
theorem exceptions_end_as_host_errors (R : Rcpp) (N : Natives R) (cc : Compiler) (f : DL_FUNC)
    (args : List R.SEXP) (hlen : args.length = f.numParams) :
    ∃ run, f.call R N cc args = some run ∧
      ((∃ v, run.outcome = .value v) ∨ (∃ e, run.outcome = .hostError e)) ∧
      (∀ e, run.outcome ≠ .escaped e) ∧
      ((∃ i e, (argFailures R (paramTypes f.native) args).getD i none = some e) →
        ∃ e, run.outcome = .hostError e) ∧
      (∀ a e, convertAll R (paramTypes f.native) args = some (.ok a) →
        N f.native a = .error e → run.outcome = .hostError e) := by
  obtain ⟨k, hk⟩ := DL_FUNC.call_shape R N cc f args hlen
  refine ⟨_, hk, ?_, ?_, ?_, ?_⟩
  · rcases BEGIN_END_RCPP_outcome R
      ((evalArgs R (argFailures R (paramTypes f.native) args) (cc f).val).bind k) with
      ⟨v, _, hv⟩ | ⟨e, _, he⟩
    · exact Or.inl ⟨v, hv⟩
    · exact Or.inr ⟨e, he⟩
  · intro e
    rcases BEGIN_END_RCPP_outcome R
      ((evalArgs R (argFailures R (paramTypes f.native) args) (cc f).val).bind k) with
      ⟨v, _, hv⟩ | ⟨e', _, he⟩
    · rw [hv]; exact fun h => Outcome.noConfusion h
    · rw [he]; exact fun h => Outcome.noConfusion h
  · intro hfail
    obtain ⟨pre, j, post, e, _, _, _, hcall⟩ := DL_FUNC.call_of_failure R N cc f args hlen hfail
    rw [hk] at hcall
    exact ⟨e, by rw [Option.some.inj hcall]⟩
  · intro a e ha hN
    have hcall := DL_FUNC.call_of_converted R N cc f args a ha
    rw [hk] at hcall
    rw [Option.some.inj hcall, hN]

/-- The statement of C1 at the concrete host: `create_lazy_vector` called with an element type
that is no integer. -/
theorem exceptions_end_as_host_errors_witness :
    ∃ run, DL_FUNC._scater_create_lazy_vector.call demoHost demoNatives Compiler.rightToLeft
        [.list 3, .null, .null, .logical true, .integer [1], .null] = some run ∧
      ((∃ v, run.outcome = .value v) ∨ (∃ e, run.outcome = .hostError e)) ∧
      (∀ e, run.outcome ≠ .escaped e) ∧
      ((∃ i e, (argFailures demoHost (paramTypes DL_FUNC._scater_create_lazy_vector.native)
          [.list 3, .null, .null, .logical true, .integer [1], .null]).getD i none = some e) →
        ∃ e, run.outcome = .hostError e) ∧
      (∀ a e, convertAll demoHost (paramTypes DL_FUNC._scater_create_lazy_vector.native)
          [.list 3, .null, .null, .logical true, .integer [1], .null] = some (.ok a) →
        demoNatives DL_FUNC._scater_create_lazy_vector.native a = .error e →
        run.outcome = .hostError e) :=
  exceptions_end_as_host_errors demoHost demoNatives Compiler.rightToLeft
    ._scater_create_lazy_vector [.list 3, .null, .null, .logical true, .integer [1], .null] rfl

/-- C2: for each forwarding entry point, when the argument list converts position by position
to the tuple `a` and the native routine returns `v` on `a`, the call returns exactly `wrap v`,
and its events are the evaluations of its arguments followed by one entry into its native
routine with the tuple `a`, and nothing else. -/
theorem forwarding_is_pass_through (R : Rcpp) (N : Natives R) (cc : Compiler) (f : DL_FUNC)
    (args : List R.SEXP) (a : NativeArgs R f.native) (v : NativeRet R f.native)
    (hconv : convertAll R (paramTypes f.native) args = some (.ok a))
    (hnative : N f.native a = .ok v) :
    f.call R N cc args =
      some ⟨(cc f).val.map .arg ++ [.native f.native a],
        .value (R.wrap (retType f.native) v)⟩ := by
  rw [DL_FUNC.call_of_converted R N cc f args a hconv, hnative]

/-- The statement of C2 at the concrete host: `per_cell_qc` on convertible arguments. -/
theorem forwarding_is_pass_through_witness :
    DL_FUNC._scater_per_cell_qc.call demoHost demoNatives Compiler.leftToRight
        [.matrix 2 3, .list 4, .integer [5, 6], .null] =
      some ⟨[.arg 0, .arg 1, .arg 2, .arg 3,
          .native .per_cell_qc (⟨.matrix 2 3⟩, (4 : Nat), ([5, 6] : List Int), Value.null)],
        .value (.list 6)⟩ :=
  forwarding_is_pass_through demoHost demoNatives Compiler.leftToRight ._scater_per_cell_qc
    [.matrix 2 3, .list 4, .integer [5, 6], .null]
    (⟨.matrix 2 3⟩, (4 : Nat), ([5, 6] : List Int), Value.null) ⟨.list 6⟩ rfl rfl

/-! ## The routine table -/

theorem CallEntries_entries :
    R_CallMethodDef.entries CallEntries =
      [ ⟨some "_scater_create_lazy_vector", some ._scater_create_lazy_vector, 6⟩,
        ⟨some "_scater_per_cell_qc", some ._scater_per_cell_qc, 4⟩,
        ⟨some "_scater_per_feature_qc", some ._scater_per_feature_qc, 3⟩,
        ⟨some "_scater_top_cumprop", some ._scater_top_cumprop, 2⟩,
        ⟨some "_scater_sum_row_counts", some ._scater_sum_row_counts, 3⟩ ] := by
  rfl

theorem DL_FUNC.call_isSome_iff (R : Rcpp) (N : Natives R) (cc : Compiler) (f : DL_FUNC)
    (args : List R.SEXP) : (f.call R N cc args).isSome ↔ args.length = f.numParams := by
  constructor
  · intro h
    cases f <;>
      rcases args with _ | ⟨a0, _ | ⟨a1, _ | ⟨a2, _ | ⟨a3, _ | ⟨a4, _ | ⟨a5, _ | ⟨a6, t⟩⟩⟩⟩⟩⟩⟩ <;>
      first
        | rfl
        | (exfalso; simp [DL_FUNC.call] at h)
  · intro h
    obtain ⟨k, hk⟩ := DL_FUNC.call_shape R N cc f args h
    rw [hk]
    rfl

/-- C3 as stated fails: the table does not carry the bare names of the interface table; `create_lazy_vector` is
not the name of any entry, and the first entry is named `_scater_create_lazy_vector`. -/
theorem CallEntries_names_are_not_bare :
    "create_lazy_vector" ∉ R_CallMethodDef.names CallEntries ∧
      "_scater_create_lazy_vector" ∈ R_CallMethodDef.names CallEntries ∧
      R_CallMethodDef.names CallEntries ≠
        ["create_lazy_vector", "per_cell_qc", "per_feature_qc", "top_cumprop",
          "sum_row_counts"] := by
  decide

/-- C3 (amended): the table has exactly five entries before its terminating entry; their names
are `_scater_create_lazy_vector`, `_scater_per_cell_qc`, `_scater_per_feature_qc`,
`_scater_top_cumprop` and `_scater_sum_row_counts`, that is the names of the five native
routines each with `_scater_` put before it, with no duplicates and no other name. -/
theorem CallEntries_has_five_scater_names :
    (R_CallMethodDef.entries CallEntries).length = 5 ∧
      CallEntries.length = 6 ∧
      CallEntries.getLast? = some ⟨none, none, 0⟩ ∧
      R_CallMethodDef.names CallEntries =
        ["_scater_create_lazy_vector", "_scater_per_cell_qc", "_scater_per_feature_qc",
          "_scater_top_cumprop", "_scater_sum_row_counts"] ∧
      R_CallMethodDef.names CallEntries =
        [Routine.create_lazy_vector, .per_cell_qc, .per_feature_qc, .top_cumprop,
          .sum_row_counts].map (fun r => "_scater_" ++ r.nativeName) ∧
      (R_CallMethodDef.names CallEntries).Nodup := by
  refine ⟨rfl, rfl, rfl, rfl, ?_, ?_⟩
  · decide
  · decide

/-- C4: every entry of the table points to a forwarding function `f`, and its declared arity
is the arity the interface table of the specification gives for the native routine of `f`, the
number of parameters of `f` (a call of `f` is defined exactly on argument lists of that
length), and the number of parameters of the native prototype. -/
theorem declared_arity_agrees (e : R_CallMethodDef)
    (he : e ∈ R_CallMethodDef.entries CallEntries) :
    ∃ f, e.fn = some f ∧
      specArity f.native.nativeName = some e.numArgs.toNat ∧
      e.numArgs = (e.numArgs.toNat : Int) ∧
      e.numArgs = (f.numParams : Int) ∧
      f.numParams = (paramTypes f.native).length ∧
      ∀ (R : Rcpp) (N : Natives R) (cc : Compiler) (args : List R.SEXP),
        (f.call R N cc args).isSome ↔ (args.length : Int) = e.numArgs := by
  rw [CallEntries_entries] at he
  simp only [List.mem_cons, List.mem_singleton, List.not_mem_nil, or_false] at he
  rcases he with rfl | rfl | rfl | rfl | rfl
  · refine ⟨._scater_create_lazy_vector, rfl, by decide, rfl, rfl, rfl, ?_⟩
    intro R N cc args
    rw [DL_FUNC.call_isSome_iff]
    exact Nat.cast_inj.symm
  · refine ⟨._scater_per_cell_qc, rfl, by decide, rfl, rfl, rfl, ?_⟩
    intro R N cc args
    rw [DL_FUNC.call_isSome_iff]
    exact Nat.cast_inj.symm
  · refine ⟨._scater_per_feature_qc, rfl, by decide, rfl, rfl, rfl, ?_⟩
    intro R N cc args
    rw [DL_FUNC.call_isSome_iff]
    exact Nat.cast_inj.symm
  · refine ⟨._scater_top_cumprop, rfl, by decide, rfl, rfl, rfl, ?_⟩
    intro R N cc args
    rw [DL_FUNC.call_isSome_iff]
    exact Nat.cast_inj.symm
  · refine ⟨._scater_sum_row_counts, rfl, by decide, rfl, rfl, rfl, ?_⟩
    intro R N cc args
    rw [DL_FUNC.call_isSome_iff]
    exact Nat.cast_inj.symm

/-- The statement of C4 at the entry of `sum_row_counts`. -/
theorem declared_arity_agrees_witness :
    ∃ f, (some DL_FUNC._scater_sum_row_counts) = some f ∧
      specArity f.native.nativeName = some 3 ∧
      (3 : Int) = ((3 : Nat) : Int) ∧
      (3 : Int) = (f.numParams : Int) ∧
      f.numParams = (paramTypes f.native).length ∧
      ∀ (R : Rcpp) (N : Natives R) (cc : Compiler) (args : List R.SEXP),
        (f.call R N cc args).isSome ↔ (args.length : Int) = 3 :=
  declared_arity_agrees ⟨some "_scater_sum_row_counts", some ._scater_sum_row_counts, 3⟩
    (by decide)

/-! ## Module load and dispatch -/

theorem R_init_scater_dll {L : Type} (init : DllInfo → L → L) (dll : DllInfo) (lazyVector : L) :
    (R_init_scater init ⟨dll, lazyVector, []⟩).dll =
      { handle := dll.handle
        useDynamicSymbols := false
        CSymbols := dll.CSymbols
        CallSymbols := R_CallMethodDef.entries CallEntries
        FortranSymbols := dll.FortranSymbols
        ExternalSymbols := dll.ExternalSymbols } := rfl

theorem Session.Reachable.loader_eq {R : Rcpp} {L : Type} {N : Natives R} {cc : Compiler}
    {exports : String → Option DL_FUNC} {init : DllInfo → L → L} {dll : DllInfo}
    {lazyVector : L} {s : Session R L}
    (h : Session.Reachable N cc exports init dll lazyVector s) :
    s.loader = R_init_scater init ⟨dll, lazyVector, []⟩ := by
  induction h with
  | load => rfl
  | dotCall s name args _ ih => exact ih

theorem R_FindSymbol_unregistered (dll : DllInfo) (exports : String → Option DL_FUNC)
    (name : String) (hdyn : dll.useDynamicSymbols = false)
    (htable : dll.CallSymbols = R_CallMethodDef.entries CallEntries)
    (hname : name ∉ R_CallMethodDef.names CallEntries) :
    R_FindSymbol dll exports name = none := by
  have hnames : R_CallMethodDef.names CallEntries =
      ["_scater_create_lazy_vector", "_scater_per_cell_qc", "_scater_per_feature_qc",
        "_scater_top_cumprop", "_scater_sum_row_counts"] := rfl
  rw [hnames] at hname
  simp only [List.mem_cons, List.mem_singleton, List.not_mem_nil, or_false, not_or] at hname
  obtain ⟨h1, h2, h3, h4, h5⟩ := hname
  have hfind : dll.CallSymbols.find? (fun e => e.name == some name) = none := by
    rw [List.find?_eq_none, htable, CallEntries_entries]
    intro x hx
    simp only [List.mem_cons, List.mem_singleton, List.not_mem_nil, or_false] at hx
    rcases hx with rfl | rfl | rfl | rfl | rfl <;> simp <;> exact fun h => by simp [← h] at *
  simp only [R_FindSymbol, hfind, hdyn]
  rfl

theorem R_FindSymbol_registered (dll : DllInfo) (exports : String → Option DL_FUNC)
    (e : R_CallMethodDef) (name : String)
    (htable : dll.CallSymbols = R_CallMethodDef.entries CallEntries)
    (he : e ∈ R_CallMethodDef.entries CallEntries) (hname : e.name = some name) :
    R_FindSymbol dll exports name = some (.registered e) := by
  rw [CallEntries_entries] at he
  simp only [List.mem_cons, List.mem_singleton, List.not_mem_nil, or_false] at he
  rcases he with rfl | rfl | rfl | rfl | rfl <;>
    · cases Option.some.inj hname
      simp only [R_FindSymbol, htable, CallEntries_entries]
      rfl

theorem dotCall_loaded (R : Rcpp) {L : Type} (N : Natives R) (cc : Compiler)
    (exports : String → Option DL_FUNC) (init : DllInfo → L → L) (dll : DllInfo)
    (lazyVector : L) (e : R_CallMethodDef) (f : DL_FUNC) (name : String) (args : List R.SEXP)
    (run : Run R) (he : e ∈ R_CallMethodDef.entries CallEntries) (hname : e.name = some name)
    (hfn : e.fn = some f) (hargs : (args.length : Int) = e.numArgs)
    (hrun : f.call R N cc args = some run) :
    dotCall R N cc (R_init_scater init ⟨dll, lazyVector, []⟩).dll exports name args =
      .ran run := by
  have hfind := R_FindSymbol_registered (R_init_scater init ⟨dll, lazyVector, []⟩).dll
    exports e name rfl he hname
  simp only [dotCall, hfind]
  rw [if_neg (fun h => h.2 hargs.symm), hfn]
  simp only [DotCall.invoke, hrun]

/-- C5: the load hook makes exactly three calls, in this order: it registers `CallEntries` as
the `.Call` table and no table of another kind, it switches dynamic lookup off, and it invokes
the lazy-vector initializer; in every session reachable after load dynamic lookup is off, the
registered `.Call` routines are the entries of `CallEntries`, the routines of the other kinds
are as before load, and a name that is not in the table resolves to nothing. -/
theorem load_registers_disables_initialises (R : Rcpp) {L : Type} (N : Natives R)
    (cc : Compiler) (exports : String → Option DL_FUNC) (init : DllInfo → L → L)
    (dll : DllInfo) (lazyVector : L) :
    (R_init_scater init ⟨dll, lazyVector, []⟩).calls =
        [.R_registerRoutines none (some CallEntries) none none, .R_useDynamicSymbols false,
          .init_lazy_vector] ∧
      (R_init_scater init ⟨dll, lazyVector, []⟩).lazyVector =
        init (R_init_scater init ⟨dll, lazyVector, []⟩).dll lazyVector ∧
      ∀ s, Session.Reachable N cc exports init dll lazyVector s →
        s.loader.calls =
          [.R_registerRoutines none (some CallEntries) none none, .R_useDynamicSymbols false,
            .init_lazy_vector] ∧
        s.loader.dll.useDynamicSymbols = false ∧
        s.loader.dll.CallSymbols = R_CallMethodDef.entries CallEntries ∧
        s.loader.dll.CSymbols = dll.CSymbols ∧
        s.loader.dll.FortranSymbols = dll.FortranSymbols ∧
        s.loader.dll.ExternalSymbols = dll.ExternalSymbols ∧
        ∀ name, name ∉ R_CallMethodDef.names CallEntries →
          R_FindSymbol s.loader.dll exports name = none ∧
          ∀ args, dotCall R N cc s.loader.dll exports name args = .notFound := by
  refine ⟨rfl, rfl, ?_⟩
  intro s hs
  rw [hs.loader_eq]
  refine ⟨rfl, rfl, rfl, rfl, rfl, rfl, ?_⟩
  intro name hname
  have hfind := R_FindSymbol_unregistered (R_init_scater init ⟨dll, lazyVector, []⟩).dll exports
    name rfl rfl hname
  refine ⟨hfind, ?_⟩
  intro args
  simp only [dotCall, hfind]

/-- C7: after load, a `.Call` of a registered name with a number of arguments other than the
declared arity of its entry is rejected by the dispatch: the result is the arity error, and no
run of the forwarding function (hence none of the native routine) takes place. -/
theorem mismatched_arity_is_rejected (R : Rcpp) {L : Type} (N : Natives R) (cc : Compiler)
    (exports : String → Option DL_FUNC) (init : DllInfo → L → L) (dll : DllInfo)
    (lazyVector : L) (e : R_CallMethodDef) (name : String) (args : List R.SEXP)
    (he : e ∈ R_CallMethodDef.entries CallEntries) (hname : e.name = some name)
    (hargs : (args.length : Int) ≠ e.numArgs) :
    dotCall R N cc (R_init_scater init ⟨dll, lazyVector, []⟩).dll exports name args =
        .wrongArity e.numArgs args.length ∧
      ∀ run, dotCall R N cc (R_init_scater init ⟨dll, lazyVector, []⟩).dll exports name args ≠
        .ran run := by
  have hfind := R_FindSymbol_registered (R_init_scater init ⟨dll, lazyVector, []⟩).dll exports
    e name rfl he hname
  have hpos : -1 < e.numArgs := by
    rw [CallEntries_entries] at he
    simp only [List.mem_cons, List.mem_singleton, List.not_mem_nil, or_false] at he
    rcases he with rfl | rfl | rfl | rfl | rfl <;> decide
  have hcall : dotCall R N cc (R_init_scater init ⟨dll, lazyVector, []⟩).dll exports name args =
      .wrongArity e.numArgs args.length := by
    simp only [dotCall, hfind]
    rw [if_pos ⟨hpos, fun h => hargs h.symm⟩]
  refine ⟨hcall, ?_⟩
  intro run h
  rw [hcall] at h
  cases h

/-- The statement of C7 at the concrete host: `_scater_sum_row_counts` called with two
arguments. -/
theorem mismatched_arity_is_rejected_witness :
    dotCall demoHost demoNatives Compiler.leftToRight
        (R_init_scater (fun _ (n : Nat) => n + 1) ⟨DllInfo.fresh, 0, []⟩).dll demoExports
        "_scater_sum_row_counts" [.matrix 2 2, .integer [1, 2]] = .wrongArity 3 2 ∧
      ∀ run, dotCall demoHost demoNatives Compiler.leftToRight
        (R_init_scater (fun _ (n : Nat) => n + 1) ⟨DllInfo.fresh, 0, []⟩).dll demoExports
        "_scater_sum_row_counts" [.matrix 2 2, .integer [1, 2]] ≠ .ran run :=
  mismatched_arity_is_rejected demoHost demoNatives Compiler.leftToRight demoExports
    (fun _ (n : Nat) => n + 1) DllInfo.fresh 0
    ⟨some "_scater_sum_row_counts", some ._scater_sum_row_counts, 3⟩ "_scater_sum_row_counts"
    [.matrix 2 2, .integer [1, 2]] (by decide) rfl (by decide)

theorem argFailures_getD_of_untyped (R : Rcpp) (Ts : List CType) (xs : List R.SEXP) (i : Nat)
    (h : Ts[i]? = some .SEXP ∨ Ts[i]? = some .RObject) :
    (argFailures R Ts xs).getD i none = none := by
  induction Ts generalizing xs i with
  | nil => rfl
  | cons T Ts ih =>
    cases xs with
    | nil => rfl
    | cons x xs =>
      cases i with
      | zero =>
        have hT : T = .SEXP ∨ T = .RObject := by simpa using h
        rcases hT with rfl | rfl <;> rfl
      | succ n =>
        have h' : Ts[n]? = some .SEXP ∨ Ts[n]? = some .RObject := by simpa using h
        simpa [argFailures] using ih xs n h'

theorem range_split_lt (n : Nat) (pre post : List Nat) (j k : Nat)
    (h : List.range n = pre ++ j :: post) (hk : k < j) : k ∈ pre := by
  have hj : j ∈ List.range n := by rw [h]; simp
  have hkn : k ∈ List.range n := List.mem_range.mpr (lt_trans hk (List.mem_range.mp hj))
  have hpw : List.Pairwise (· < ·) (pre ++ j :: post) := by
    rw [← h]; exact List.pairwise_lt_range n
  rw [h] at hkn
  rcases List.mem_append.mp hkn with hp | hp
  · exact hp
  · rcases List.mem_cons.mp hp with rfl | hp
    · exact absurd hk (lt_irrefl _)
    · have := (List.pairwise_cons.mp (List.pairwise_append.mp hpw).2.1).1 k hp
      exact absurd hk (not_lt.mpr (le_of_lt this))

theorem convertAll_component_untyped (R : Rcpp) (Ts : List CType) (xs : List R.SEXP)
    (a : ArgTuple R Ts) (i : Nat) (x : R.SEXP) (h : convertAll R Ts xs = some (.ok a))
    (hx : xs[i]? = some x) :
    (Ts[i]? = some .SEXP → ArgTuple.component R Ts a i = some ⟨.SEXP, x⟩) ∧
      (Ts[i]? = some .RObject →
        ArgTuple.component R Ts a i = some ⟨.RObject, Scater.RObject.mk x⟩) := by
  induction Ts generalizing xs i with
  | nil => exact ⟨fun hT => by simp at hT, fun hT => by simp at hT⟩
  | cons T Ts ih =>
    cases Ts with
    | nil =>
      rcases xs with _ | ⟨x0, _ | ⟨y, ys⟩⟩
      · simp [convertAll] at h
      · cases i with
        | zero =>
          have hx0 : x0 = x := by simpa using hx
          subst hx0
          have hT : R.as T x0 = .ok a := by simpa [convertAll] using h
          constructor
          · intro hTi
            have : T = .SEXP := by simpa using hTi
            subst this
            cases hT
            rfl
          · intro hTi
            have : T = .RObject := by simpa using hTi
            subst this
            cases hT
            rfl
        | succ n => exact ⟨fun hT => by simp at hT, fun hT => by simp at hT⟩
      · simp [convertAll] at h
    | cons U Us =>
      cases xs with
      | nil => simp [convertAll] at h
      | cons x0 xs =>
        cases hrest : convertAll R (U :: Us) xs with
        | none => simp [convertAll, hrest] at h
        | some rest =>
          cases hT : R.as T x0 with
          | error e => simp [convertAll, hrest, hT] at h
          | ok a0 =>
            cases rest with
            | error e => simp [convertAll, hrest, hT] at h
            | ok tail =>
              have ha : a = (a0, tail) := by
                simp [convertAll, hrest, hT] at h
                exact h.symm
              subst ha
              cases i with
              | zero =>
                have hx0 : x0 = x := by simpa using hx
                subst hx0
                constructor
                · intro hTi
                  have : T = .SEXP := by simpa using hTi
                  subst this
                  cases hT
                  rfl
                · intro hTi
                  have : T = .RObject := by simpa using hTi
                  subst this
                  cases hT
                  rfl
              | succ n =>
                have hx' : xs[n]? = some x := by simpa using hx
                have := ih xs tail n hrest hx'
                simpa [ArgTuple.component] using this

/-- C8 as stated fails.  With right-to-left evaluation of the arguments, `create_lazy_vector` called with a `getcol`
that is no logical value and a `type` that is no integer ends with the error of `type`, the
last failing argument in parameter order, after evaluating that argument only; the first
failing argument in parameter order is `getcol`.  On convertible arguments the conversions of
`top_cumprop` run from the last parameter to the first.  Hence it does not hold for every
compiler order that a call ends with the error of the first failing argument in parameter
order. -/
theorem first_failing_argument_counterexample :
    argFailures demoHost (paramTypes .create_lazy_vector)
        [.null, .null, .null, .null, .integer [1], .null] =
      [none, none, none, some "expecting a single logical value", none,
        some "expecting a single integer value"] ∧
    convertAll demoHost (paramTypes .create_lazy_vector)
        [.null, .null, .null, .null, .integer [1], .null] =
      some (.error "expecting a single logical value") ∧
    DL_FUNC._scater_create_lazy_vector.call demoHost demoNatives Compiler.rightToLeft
        [.null, .null, .null, .null, .integer [1], .null] =
      some ⟨[.arg 5], .hostError "expecting a single integer value"⟩ ∧
    "expecting a single integer value" ≠ "expecting a single logical value" ∧
    DL_FUNC._scater_top_cumprop.call demoHost demoNatives Compiler.rightToLeft
        [.matrix 2 2, .integer [7]] =
      some ⟨[.arg 1, .arg 0, .native .top_cumprop (⟨.matrix 2 2⟩, ([7] : List Int))],
        .value (.matrix 1 1)⟩ ∧
    ¬ (∀ (R : Rcpp) (N : Natives R) (cc : Compiler) (f : DL_FUNC) (args : List R.SEXP)
        (run : Run R) (e : R.Exn), f.call R N cc args = some run →
        convertAll R (paramTypes f.native) args = some (.error e) →
        run.outcome = .hostError e) := by
  refine ⟨rfl, rfl, rfl, by decide, rfl, ?_⟩
  intro h
  have hrun := h demoHost demoNatives Compiler.rightToLeft ._scater_create_lazy_vector
    [.null, .null, .null, .null, .integer [1], .null]
    ⟨[.arg 5], .hostError "expecting a single integer value"⟩
    "expecting a single logical value" rfl rfl
  have hne : ("expecting a single integer value" : String) ≠
      "expecting a single logical value" := by decide
  exact hne (Outcome.hostError.inj hrun)

/-- C8 (amended): in every forwarding entry point the arguments are converted in the order in
which the compiler evaluates the arguments of the native call, and all of them before the
native routine is entered.  If the conversion of any argument fails, the call stops at the
first failing argument in that order, the native routine is not entered, and the call ends in
the host error of that argument's exception; when the order is left to right, that argument is
the first failing one in parameter order.  Parameters of type `SEXP` (`mat`, `dim`, `idx`,
`limit`) and `RObject` (`matrix`, `counts`) are passed through unconverted, the native routine
receiving the argument itself or the handle around it, and never fail to convert. -/
theorem conversion_failure_stops_call (R : Rcpp) (N : Natives R) (cc : Compiler) (f : DL_FUNC)
    (args : List R.SEXP) (hlen : args.length = f.numParams) :
    (∀ i, (paramTypes f.native)[i]? = some .SEXP ∨ (paramTypes f.native)[i]? = some .RObject →
        (argFailures R (paramTypes f.native) args).getD i none = none) ∧
      (∀ a, convertAll R (paramTypes f.native) args = some (.ok a) →
        ∃ run, f.call R N cc args = some run ∧
          run.trace = (cc f).val.map .arg ++ [.native f.native a]) ∧
      ((∃ i e, (argFailures R (paramTypes f.native) args).getD i none = some e) →
        ∃ pre j post e, (cc f).val = pre ++ j :: post ∧
          (∀ k ∈ pre, (argFailures R (paramTypes f.native) args).getD k none = none) ∧
          (argFailures R (paramTypes f.native) args).getD j none = some e ∧
          f.call R N cc args = some ⟨(pre ++ [j]).map .arg, .hostError e⟩ ∧
          ((cc f).val = List.range f.numParams →
            ∀ k < j, (argFailures R (paramTypes f.native) args).getD k none = none)) ∧
      (∀ x, R.as .SEXP x = .ok x ∧ R.as .RObject x = .ok (Scater.RObject.mk x)) ∧
      (∀ a, convertAll R (paramTypes f.native) args = some (.ok a) →
        ∀ i x, args[i]? = some x →
          ((paramTypes f.native)[i]? = some .SEXP →
            ArgTuple.component R (paramTypes f.native) a i = some ⟨.SEXP, x⟩) ∧
          ((paramTypes f.native)[i]? = some .RObject →
            ArgTuple.component R (paramTypes f.native) a i =
              some ⟨.RObject, Scater.RObject.mk x⟩)) := by
  refine ⟨fun i hi => argFailures_getD_of_untyped R _ args i hi, ?_, ?_, fun x => ⟨rfl, rfl⟩,
    fun a ha i x hx => convertAll_component_untyped R _ args a i x ha hx⟩
  · intro a ha
    exact ⟨_, DL_FUNC.call_of_converted R N cc f args a ha, rfl⟩
  · intro hfail
    obtain ⟨pre, j, post, e, hord, hpre, hj, hcall⟩ :=
      DL_FUNC.call_of_failure R N cc f args hlen hfail
    refine ⟨pre, j, post, e, hord, hpre, hj, hcall, ?_⟩
    intro hltr k hk
    exact hpre k (range_split_lt f.numParams pre post j k (by rw [← hltr, hord]) hk)

/-- The statement of C8 (amended) at the concrete host: `sum_row_counts` with left-to-right
evaluation. -/
theorem conversion_failure_stops_call_witness :
    (∀ i, (paramTypes DL_FUNC._scater_sum_row_counts.native)[i]? = some .SEXP ∨
          (paramTypes DL_FUNC._scater_sum_row_counts.native)[i]? = some .RObject →
        (argFailures demoHost (paramTypes DL_FUNC._scater_sum_row_counts.native)
          [.matrix 2 2, .null, .null]).getD i none = none) ∧
      (∀ a, convertAll demoHost (paramTypes DL_FUNC._scater_sum_row_counts.native)
          [.matrix 2 2, .null, .null] = some (.ok a) →
        ∃ run, DL_FUNC._scater_sum_row_counts.call demoHost demoNatives Compiler.leftToRight
            [.matrix 2 2, .null, .null] = some run ∧
          run.trace = (Compiler.leftToRight ._scater_sum_row_counts).val.map .arg ++
            [.native DL_FUNC._scater_sum_row_counts.native a]) ∧
      ((∃ i e, (argFailures demoHost (paramTypes DL_FUNC._scater_sum_row_counts.native)
          [.matrix 2 2, .null, .null]).getD i none = some e) →
        ∃ pre j post e, (Compiler.leftToRight ._scater_sum_row_counts).val = pre ++ j :: post ∧
          (∀ k ∈ pre, (argFailures demoHost (paramTypes DL_FUNC._scater_sum_row_counts.native)
            [.matrix 2 2, .null, .null]).getD k none = none) ∧
          (argFailures demoHost (paramTypes DL_FUNC._scater_sum_row_counts.native)
            [.matrix 2 2, .null, .null]).getD j none = some e ∧
          DL_FUNC._scater_sum_row_counts.call demoHost demoNatives Compiler.leftToRight
            [.matrix 2 2, .null, .null] = some ⟨(pre ++ [j]).map .arg, .hostError e⟩ ∧
          ((Compiler.leftToRight ._scater_sum_row_counts).val =
              List.range DL_FUNC._scater_sum_row_counts.numParams →
            ∀ k < j, (argFailures demoHost (paramTypes DL_FUNC._scater_sum_row_counts.native)
              [.matrix 2 2, .null, .null]).getD k none = none)) ∧
      (∀ x, demoHost.as .SEXP x = .ok x ∧ demoHost.as .RObject x = .ok (Scater.RObject.mk x)) ∧
      (∀ a, convertAll demoHost (paramTypes DL_FUNC._scater_sum_row_counts.native)
          [.matrix 2 2, .null, .null] = some (.ok a) →
        ∀ i x, ([.matrix 2 2, .null, .null] : List Value)[i]? = some x →
          ((paramTypes DL_FUNC._scater_sum_row_counts.native)[i]? = some .SEXP →
            ArgTuple.component demoHost (paramTypes DL_FUNC._scater_sum_row_counts.native) a i =
              some ⟨.SEXP, x⟩) ∧
          ((paramTypes DL_FUNC._scater_sum_row_counts.native)[i]? = some .RObject →
            ArgTuple.component demoHost (paramTypes DL_FUNC._scater_sum_row_counts.native) a i =
              some ⟨.RObject, Scater.RObject.mk x⟩)) :=
  conversion_failure_stops_call demoHost demoNatives Compiler.leftToRight
    ._scater_sum_row_counts [.matrix 2 2, .null, .null] rfl

/-- The pass-through evaluated at the concrete host: of the tuple that `per_cell_qc` receives
for the arguments `matrix 2 3`, `list 4`, `integer [5, 6]`, `null`, the component of `matrix`
is the handle around the first argument and the component of `limit` is the fourth argument
itself. -/
theorem untyped_arguments_evaluated :
    convertAll demoHost (paramTypes .per_cell_qc)
        [.matrix 2 3, .list 4, .integer [5, 6], .null] =
      some (.ok (⟨.matrix 2 3⟩, (4 : Nat), ([5, 6] : List Int), Value.null)) ∧
    ArgTuple.component demoHost (paramTypes .per_cell_qc)
        (⟨.matrix 2 3⟩, (4 : Nat), ([5, 6] : List Int), Value.null) 0 =
      some ⟨.RObject, (⟨.matrix 2 3⟩ : RObject demoHost)⟩ ∧
    ArgTuple.component demoHost (paramTypes .per_cell_qc)
        (⟨.matrix 2 3⟩, (4 : Nat), ([5, 6] : List Int), Value.null) 3 =
      some ⟨.SEXP, Value.null⟩ :=
  ⟨rfl, rfl, rfl⟩

/-! ## The scenario of `sum_row_counts` -/

/-- C6: with the native `sum_row_counts` as the specification describes it, after load a
`.Call` of the registered `_scater_sum_row_counts` with a counts matrix and an integer vector
`genes` whose length differs from the matrix's row count runs the forwarding function and ends
in a host error (the length-mismatch error when `runs` is an integer vector as well); with
`genes` and `runs` both of the length of the row count it returns the aggregated result. -/
theorem sum_row_counts_checks_length (R : Rcpp) {L : Type} (N : Natives R)
    (M : CountsModel R) (cc : Compiler) (exports : String → Option DL_FUNC)
    (init : DllInfo → L → L) (dll : DllInfo) (lazyVector : L)
    (countsSEXP genesSEXP runsSEXP : R.SEXP) (genes : R.IntegerVector)
    (hgenes : R.as_IntegerVector genesSEXP = .ok genes) :
    (M.length genes ≠ M.nrow ⟨countsSEXP⟩ →
        ∃ run e, dotCall R (N.withSumRowCounts M) cc
            (R_init_scater init ⟨dll, lazyVector, []⟩).dll exports "_scater_sum_row_counts"
            [countsSEXP, genesSEXP, runsSEXP] = .ran run ∧
          run.outcome = .hostError e ∧
          ∀ runs, R.as_IntegerVector runsSEXP = .ok runs → e = M.mismatch) ∧
      (∀ runs, R.as_IntegerVector runsSEXP = .ok runs →
        M.length genes = M.nrow ⟨countsSEXP⟩ → M.length runs = M.nrow ⟨countsSEXP⟩ →
        ∃ run, dotCall R (N.withSumRowCounts M) cc
            (R_init_scater init ⟨dll, lazyVector, []⟩).dll exports "_scater_sum_row_counts"
            [countsSEXP, genesSEXP, runsSEXP] = .ran run ∧
          run.outcome = .value (M.aggregate ⟨countsSEXP⟩ genes runs).sexp) := by
  have hent : (⟨some "_scater_sum_row_counts", some ._scater_sum_row_counts, 3⟩ :
      R_CallMethodDef) ∈ R_CallMethodDef.entries CallEntries := by decide
  have hdisp : ∀ run, DL_FUNC._scater_sum_row_counts.call R (N.withSumRowCounts M) cc
      [countsSEXP, genesSEXP, runsSEXP] = some run →
      dotCall R (N.withSumRowCounts M) cc (R_init_scater init ⟨dll, lazyVector, []⟩).dll
        exports "_scater_sum_row_counts" [countsSEXP, genesSEXP, runsSEXP] = .ran run :=
    fun run hrun => dotCall_loaded R (N.withSumRowCounts M) cc exports init dll lazyVector _
      ._scater_sum_row_counts "_scater_sum_row_counts" _ run hent rfl rfl rfl hrun
  have hconv : ∀ runs, R.as_IntegerVector runsSEXP = .ok runs →
      convertAll R (paramTypes DL_FUNC._scater_sum_row_counts.native)
        [countsSEXP, genesSEXP, runsSEXP] = some (.ok (⟨countsSEXP⟩, genes, runs)) := by
    intro runs hruns
    simp [DL_FUNC.native, paramTypes, convertAll, Rcpp.as, hgenes, hruns]
  refine ⟨?_, ?_⟩
  · intro hne
    cases hruns : R.as_IntegerVector runsSEXP with
    | error er =>
      have hfail : ∃ i e, (argFailures R (paramTypes DL_FUNC._scater_sum_row_counts.native)
          [countsSEXP, genesSEXP, runsSEXP]).getD i none = some e :=
        ⟨2, er, by simp [DL_FUNC.native, paramTypes, argFailures, Rcpp.failure, Rcpp.as, hruns]⟩
      obtain ⟨pre, j, post, e, _, _, _, hcall⟩ := DL_FUNC.call_of_failure R
        (N.withSumRowCounts M) cc ._scater_sum_row_counts [countsSEXP, genesSEXP, runsSEXP] rfl
        hfail
      exact ⟨_, e, hdisp _ hcall, rfl, fun runs h => by cases h⟩
    | ok runs =>
      have hcall := DL_FUNC.call_of_converted R (N.withSumRowCounts M) cc
        ._scater_sum_row_counts [countsSEXP, genesSEXP, runsSEXP] _ (hconv runs hruns)
      refine ⟨_, M.mismatch, hdisp _ hcall, ?_, fun _ _ => rfl⟩
      simp [DL_FUNC.native, Natives.withSumRowCounts, sum_row_counts, hne]
  · intro runs hruns hg _
    have hcall := DL_FUNC.call_of_converted R (N.withSumRowCounts M) cc
      ._scater_sum_row_counts [countsSEXP, genesSEXP, runsSEXP] _ (hconv runs hruns)
    refine ⟨_, hdisp _ hcall, ?_⟩
    simp [DL_FUNC.native, Natives.withSumRowCounts, sum_row_counts, hg, Rcpp.wrap, retType]

/-- The scenario evaluated at the concrete host, with right-to-left evaluation: group ids of
length two against a matrix of three rows end in the length-mismatch error after the native
routine was entered; against a matrix of two rows the aggregated result is returned. -/
theorem sum_row_counts_scenario_evaluated :
    dotCall demoHost (demoNatives.withSumRowCounts demoCounts) Compiler.rightToLeft
        (R_init_scater (fun _ (n : Nat) => n + 1) ⟨DllInfo.fresh, 0, []⟩).dll demoExports
        "_scater_sum_row_counts" [.matrix 3 3, .integer [1, 2], .integer [1, 1]] =
      .ran ⟨[.arg 2, .arg 1, .arg 0,
          .native .sum_row_counts (⟨.matrix 3 3⟩, ([1, 2] : List Int), ([1, 1] : List Int))],
        .hostError "length of group ids differs from the number of rows"⟩ ∧
    dotCall demoHost (demoNatives.withSumRowCounts demoCounts) Compiler.rightToLeft
        (R_init_scater (fun _ (n : Nat) => n + 1) ⟨DllInfo.fresh, 0, []⟩).dll demoExports
        "_scater_sum_row_counts" [.matrix 2 3, .integer [1, 2], .integer [1, 1]] =
      .ran ⟨[.arg 2, .arg 1, .arg 0,
          .native .sum_row_counts (⟨.matrix 2 3⟩, ([1, 2] : List Int), ([1, 1] : List Int))],
        .value (.integer [1, 2, 1, 1])⟩ ∧
    dotCall demoHost (demoNatives.withSumRowCounts demoCounts) Compiler.rightToLeft
        (R_init_scater (fun _ (n : Nat) => n + 1) ⟨DllInfo.fresh, 0, []⟩).dll demoExports
        "sum_row_counts" [.matrix 2 3, .integer [1, 2], .integer [1, 1]] = .notFound ∧
    dotCall demoHost (demoNatives.withSumRowCounts demoCounts) Compiler.rightToLeft
        DllInfo.fresh demoExports
        "_scater_sum_row_counts" [.matrix 2 3, .integer [1, 2]] = .undefined :=
  ⟨rfl, rfl, rfl, rfl⟩

/-- The statement of C6 at the concrete host: a matrix of two rows and group ids of length
two. -/
theorem sum_row_counts_checks_length_witness :
    ((2 : Nat) ≠ 2 →
        ∃ run e, dotCall demoHost (demoNatives.withSumRowCounts demoCounts)
            Compiler.leftToRight
            (R_init_scater (fun _ (n : Nat) => n + 1) ⟨DllInfo.fresh, 0, []⟩).dll demoExports
            "_scater_sum_row_counts" [.matrix 2 3, .integer [1, 2], .integer [1, 1]] =
              .ran run ∧
          run.outcome = .hostError e ∧
          ∀ runs, demoHost.as_IntegerVector (.integer [1, 1]) = .ok runs →
            e = demoCounts.mismatch) ∧
      (∀ runs, demoHost.as_IntegerVector (.integer [1, 1]) = .ok runs →
        (2 : Nat) = 2 → demoCounts.length runs = 2 →
        ∃ run, dotCall demoHost (demoNatives.withSumRowCounts demoCounts)
            Compiler.leftToRight
            (R_init_scater (fun _ (n : Nat) => n + 1) ⟨DllInfo.fresh, 0, []⟩).dll demoExports
            "_scater_sum_row_counts" [.matrix 2 3, .integer [1, 2], .integer [1, 1]] =
              .ran run ∧
          run.outcome = .value (demoCounts.aggregate ⟨.matrix 2 3⟩ ([1, 2] : List Int) runs).sexp) :=
  sum_row_counts_checks_length demoHost demoNatives demoCounts Compiler.leftToRight demoExports
    (fun _ (n : Nat) => n + 1) DllInfo.fresh 0 (.matrix 2 3) (.integer [1, 2]) (.integer [1, 1])
    ([1, 2] : List Int) rfl

end Scater
